import Mathlib

/-
Verification of the Pandora memory engine (src/backend/pandora_engine.py).

The Python module is shallowly embedded: each class becomes a structure,
each method a Lean function; methods that mutate the object are state
transformers returning the result together with the updated state, and
methods that only read return the result together with the unchanged
state, mirroring the absence of writes to self in their bodies.
External effects (uuid4, wall-clock timestamps, the MongoDB insert, the
two snapshot file writes) are modelled explicitly: record ids and
timestamps are drawn from a counter threaded through the engine state,
the database is a list the engine appends to, and file writes are an
environment mapping each target path to success or failure.
-/

namespace Pandora

/-- Values produced by JSON parsing, as stored in the collector buffer.
Numbers keep their raw lexeme, so no floating-point semantics is needed. -/
inductive Json where
  | null : Json
  | bool (b : Bool) : Json
  | num (raw : String) : Json
  | str (s : String) : Json
  | arr (elems : List Json) : Json
  | obj (fields : List (String × Json)) : Json
deriving Repr

/-- Whitespace characters of the JSON grammar. -/
def isJsonWs (c : Char) : Bool :=
  c = ' ' || c = '\t' || c = '\n' || c = '\r'

/-- Drop leading JSON whitespace. -/
def skipWs : List Char → List Char
  | [] => []
  | c :: rest => if isJsonWs c then skipWs rest else c :: rest

/-- Parse errors carry a message and the input remaining at the error,
from which the character offset of the error is recovered. -/
abbrev PErr := String × List Char

/-- Value of a hexadecimal digit, if any. -/
def hexVal (c : Char) : Option Nat :=
  if '0' ≤ c ∧ c ≤ '9' then some (c.toNat - '0'.toNat)
  else if 'a' ≤ c ∧ c ≤ 'f' then some (c.toNat - 'a'.toNat + 10)
  else if 'A' ≤ c ∧ c ≤ 'F' then some (c.toNat - 'A'.toNat + 10)
  else none

/-- Single-character string escapes of JSON. -/
def escChar (e : Char) : Option Char :=
  if e = '"' then some '"'
  else if e = '\\' then some '\\'
  else if e = '/' then some '/'
  else if e = 'b' then some (Char.ofNat 8)
  else if e = 'f' then some (Char.ofNat 12)
  else if e = 'n' then some '\n'
  else if e = 'r' then some '\r'
  else if e = 't' then some '\t'
  else none

/-- Scan a JSON string body after the opening quote; returns the decoded
characters and the input after the closing quote. -/
def parseStringBody : List Char → Except PErr (List Char × List Char)
  | [] => Except.error ("Unterminated string", [])
  | c :: rest =>
    if c = '"' then Except.ok ([], rest)
    else if c = '\\' then
      match rest with
      | [] => Except.error ("Unterminated string", ([] : List Char))
      | 'u' :: h1 :: h2 :: h3 :: h4 :: rest3 =>
        match hexVal h1, hexVal h2, hexVal h3, hexVal h4 with
        | some a, some b, some c2, some d =>
          match parseStringBody rest3 with
          | Except.ok (s, r) => Except.ok (Char.ofNat (((a * 16 + b) * 16 + c2) * 16 + d) :: s, r)
          | Except.error er => Except.error er
        | _, _, _, _ => Except.error ("Invalid unicode escape", rest)
      | e :: rest2 =>
        match escChar e with
        | some ce =>
          match parseStringBody rest2 with
          | Except.ok (s, r) => Except.ok (ce :: s, r)
          | Except.error er => Except.error er
        | none => Except.error ("Invalid escape", e :: rest2)
    else
      match parseStringBody rest with
      | Except.ok (s, r) => Except.ok (c :: s, r)
      | Except.error er => Except.error er

/-- Take a maximal run of decimal digits. -/
def takeDigits : List Char → List Char × List Char
  | [] => ([], [])
  | c :: rest =>
    if c.isDigit then
      let p := takeDigits rest
      (c :: p.1, p.2)
    else ([], c :: rest)

/-- Parse the exponent part of a number, given the characters parsed so far. -/
def parseExpPart (pre : List Char) (cs : List Char) : Except PErr (Json × List Char) :=
  let sp : List Char × List Char :=
    match cs with
    | '+' :: rest => (['+'], rest)
    | '-' :: rest => (['-'], rest)
    | _ => ([], cs)
  let dp := takeDigits sp.2
  if dp.1 = [] then Except.error ("Expecting digits in exponent", sp.2)
  else Except.ok (Json.num (String.mk (pre ++ 'e' :: sp.1 ++ dp.1)), dp.2)

/-- Parse a JSON number starting at cs (first char is a minus sign or digit).
Slightly more permissive than CPython on leading zeros, which none of the
verified properties depend on. -/
def parseNumber (cs : List Char) : Except PErr (Json × List Char) :=
  let sp : List Char × List Char :=
    match cs with
    | '-' :: rest => (['-'], rest)
    | _ => ([], cs)
  let ip := takeDigits sp.2
  if ip.1 = [] then Except.error ("Expecting value", cs)
  else
    match ip.2 with
    | '.' :: cs3 =>
      let fp := takeDigits cs3
      if fp.1 = [] then Except.error ("Expecting digits after decimal point", cs3)
      else
        match fp.2 with
        | 'e' :: cs5 => parseExpPart (sp.1 ++ ip.1 ++ '.' :: fp.1) cs5
        | 'E' :: cs5 => parseExpPart (sp.1 ++ ip.1 ++ '.' :: fp.1) cs5
        | _ => Except.ok (Json.num (String.mk (sp.1 ++ ip.1 ++ '.' :: fp.1)), fp.2)
    | 'e' :: cs5 => parseExpPart (sp.1 ++ ip.1) cs5
    | 'E' :: cs5 => parseExpPart (sp.1 ++ ip.1) cs5
    | _ => Except.ok (Json.num (String.mk (sp.1 ++ ip.1)), ip.2)

/-- Match a literal keyword, returning the rest of the input. -/
def matchLit : List Char → List Char → Option (List Char)
  | [], rest => some rest
  | _ :: _, [] => none
  | l :: ls, c :: rest => if c = l then matchLit ls rest else none

mutual

/-- Parse one JSON value (model of the recursive descent in CPython json.loads);
fuel bounds the recursion and is chosen large enough at the top entry. -/
def parseValue : Nat → List Char → Except PErr (Json × List Char)
  | 0, cs => Except.error ("Nesting limit exceeded", cs)
  | fuel + 1, cs0 =>
    match skipWs cs0 with
    | [] => Except.error ("Expecting value", [])
    | c :: rest =>
      if c = '{' then
        match skipWs rest with
        | '}' :: r => Except.ok (Json.obj [], r)
        | cs1 =>
          match parseObjItems fuel cs1 with
          | Except.ok (fs, r) => Except.ok (Json.obj fs, r)
          | Except.error er => Except.error er
      else if c = '[' then
        match skipWs rest with
        | ']' :: r => Except.ok (Json.arr [], r)
        | cs1 =>
          match parseArrItems fuel cs1 with
          | Except.ok (vs, r) => Except.ok (Json.arr vs, r)
          | Except.error er => Except.error er
      else if c = '"' then
        match parseStringBody rest with
        | Except.ok (s, r) => Except.ok (Json.str (String.mk s), r)
        | Except.error er => Except.error er
      else if c = 'n' then
        match matchLit ['u', 'l', 'l'] rest with
        | some r => Except.ok (Json.null, r)
        | none => Except.error ("Expecting value", c :: rest)
      else if c = 't' then
        match matchLit ['r', 'u', 'e'] rest with
        | some r => Except.ok (Json.bool true, r)
        | none => Except.error ("Expecting value", c :: rest)
      else if c = 'f' then
        match matchLit ['a', 'l', 's', 'e'] rest with
        | some r => Except.ok (Json.bool false, r)
        | none => Except.error ("Expecting value", c :: rest)
      else if c = '-' ∨ c.isDigit then parseNumber (c :: rest)
      else Except.error ("Expecting value", c :: rest)

/-- Parse the comma-separated items of a non-empty JSON array. -/
def parseArrItems : Nat → List Char → Except PErr (List Json × List Char)
  | 0, cs => Except.error ("Nesting limit exceeded", cs)
  | fuel + 1, cs =>
    match parseValue fuel cs with
    | Except.error er => Except.error er
    | Except.ok (v, r) =>
      match skipWs r with
      | ',' :: r2 =>
        match parseArrItems fuel r2 with
        | Except.ok (vs, rr) => Except.ok (v :: vs, rr)
        | Except.error er => Except.error er
      | ']' :: r2 => Except.ok ([v], r2)
      | other => Except.error ("Expecting comma delimiter", other)

/-- Parse the members of a non-empty JSON object (key ordering preserved). -/
def parseObjItems : Nat → List Char → Except PErr (List (String × Json) × List Char)
  | 0, cs => Except.error ("Nesting limit exceeded", cs)
  | fuel + 1, cs =>
    match cs with
    | '"' :: rest =>
      match parseStringBody rest with
      | Except.error er => Except.error er
      | Except.ok (k, r) =>
        match skipWs r with
        | ':' :: r2 =>
          match parseValue fuel r2 with
          | Except.error er => Except.error er
          | Except.ok (v, r3) =>
            match skipWs r3 with
            | ',' :: r4 =>
              match parseObjItems fuel (skipWs r4) with
              | Except.ok (fs, rr) => Except.ok ((String.mk k, v) :: fs, rr)
              | Except.error er => Except.error er
            | '}' :: r4 => Except.ok ([(String.mk k, v)], r4)
            | other => Except.error ("Expecting comma delimiter", other)
        | other => Except.error ("Expecting colon delimiter", other)
    | other => Except.error ("Expecting property name enclosed in double quotes", other)

end

/-- Decode failure of the JSON model, as raised by json.loads: a message
and the character offset at which decoding failed. -/
structure JsonDecodeError where
  msg : String
  pos : Nat
deriving Repr, DecidableEq

/-- Rendering of a decode error, modelling str(e) on a JSONDecodeError
(message followed by position information; line and column are elided). -/
def JsonDecodeError.render (e : JsonDecodeError) : String :=
  e.msg ++ " (char " ++ toString e.pos ++ ")"

/-- Model of json.loads: parse one value, then require only trailing
whitespace, as CPython does. -/
def jsonLoads (s : String) : Except JsonDecodeError Json :=
  let cs := s.data
  match parseValue (cs.length + 1) cs with
  | Except.error (m, rem) => Except.error ⟨m, cs.length - rem.length⟩
  | Except.ok (v, rest) =>
    match skipWs rest with
    | [] => Except.ok v
    | rem => Except.error ⟨"Extra data", cs.length - rem.length⟩

/-- State of FloJsonOutputCollector: the buffer list and the three
configuration flags, with the constructor defaults of the source. -/
structure FloJsonOutputCollector where
  buffer : List Json
  strict_mode : Bool
  comment_strip : Bool
  reverse_order : Bool
deriving Repr

/-- A freshly constructed collector (the values set in init). -/
def FloJsonOutputCollector.mk0 : FloJsonOutputCollector :=
  { buffer := [], strict_mode := false, comment_strip := true, reverse_order := true }

/-- Method peek: the last buffer item, if any; reads only. -/
def FloJsonOutputCollector.peek (c : FloJsonOutputCollector) : Option Json :=
  c.buffer.getLast?

/-- Method pop: remove and return the last buffer item. -/
def FloJsonOutputCollector.pop (c : FloJsonOutputCollector) :
    Option Json × FloJsonOutputCollector :=
  match c.buffer.getLast? with
  | some x => (some x, { c with buffer := c.buffer.dropLast })
  | none => (none, c)

/-- Method fetch: depth items from the tail (reverse_order) or the head;
the body only reads self.buffer, so the state is returned unchanged. -/
def FloJsonOutputCollector.fetch (c : FloJsonOutputCollector) (depth : Int) :
    List Json × FloJsonOutputCollector :=
  (if depth ≤ 0 ∨ c.buffer.isEmpty then []
   else if c.reverse_order then c.buffer.drop (c.buffer.length - depth.toNat)
   else c.buffer.take depth.toNat, c)

/-- Truncate one line at the first occurrence of two consecutive slashes,
as the source does with line.index applied to the slash pair. -/
def stripLineChars : List Char → List Char
  | [] => []
  | '/' :: '/' :: _ => []
  | c :: rest => c :: stripLineChars rest

/-- Split a character sequence at newline characters, keeping empty
segments, as Python str.split with an explicit newline separator does. -/
def splitOnNl : List Char → List (List Char)
  | [] => [[]]
  | c :: rest =>
    let r := splitOnNl rest
    if c = '\n' then [] :: r
    else (c :: r.headD []) :: r.tail

/-- Rejoin line segments with newline characters, as str.join does. -/
def joinNl : List (List Char) → List Char
  | [] => []
  | [l] => l
  | l :: l2 :: ls => l ++ '\n' :: joinNl (l2 :: ls)

/-- Method strip_comments: split on newlines, truncate each line at the
first slash pair, rejoin; identity when comment_strip is off. -/
def FloJsonOutputCollector.strip_comments (c : FloJsonOutputCollector) (s : String) : String :=
  if ¬ c.comment_strip then s
  else String.mk (joinNl ((splitOnNl s.data).map stripLineChars))

/-- Input to collect: either textual data or an already structured value. -/
inductive CollectInput where
  | text (s : String)
  | value (v : Json)

/-- Method collect: parse textual input (after comment stripping) and
append it; on a decode error either append a degraded record (tolerant
mode) or reject (strict mode). Structured input is appended as is. -/
def FloJsonOutputCollector.collect (c : FloJsonOutputCollector) (data : CollectInput) :
    Bool × FloJsonOutputCollector :=
  match data with
  | CollectInput.value v => (true, { c with buffer := c.buffer ++ [v] })
  | CollectInput.text s =>
    match jsonLoads (c.strip_comments s) with
    | Except.ok v => (true, { c with buffer := c.buffer ++ [v] })
    | Except.error e =>
      if ¬ c.strict_mode then
        (true, { c with buffer :=
          c.buffer ++ [Json.obj [("partial_state", Json.str s), ("error", Json.str e.render)]] })
      else (false, c)

/-- The while loop of iter_q in the reverse direction: the counter n
stands for idx + 1, so n = 0 is loop exit and the item read is at n - 1.
Every reachable read is in bounds, where the default is irrelevant. -/
def iterWhileRev (buf : List Json) : Nat → List Json
  | 0 => []
  | n + 1 => buf.getD n Json.null :: iterWhileRev buf n

/-- The while loop of iter_q in the forward direction, from index idx up. -/
def iterWhileFwd (buf : List Json) (idx : Nat) : List Json :=
  if h : idx < buf.length then buf.get ⟨idx, h⟩ :: iterWhileFwd buf (idx + 1) else []
termination_by buf.length - idx

/-- Method iter_q: the direct reversal path when hybrid_mode is off, the
while loop otherwise; the body only reads self.buffer. -/
def FloJsonOutputCollector.iter_q (c : FloJsonOutputCollector) (hybrid_mode : Bool) :
    List Json × FloJsonOutputCollector :=
  (if ¬ hybrid_mode then
     if c.reverse_order then c.buffer.reverse else c.buffer
   else
     if c.reverse_order then iterWhileRev c.buffer c.buffer.length
     else iterWhileFwd c.buffer 0, c)

mutual

/-- Rendering of a Json value as Python str would show the underlying
dict/list/scalars. Quoting style is simplified; only the length of this
text ever feeds an engine field, and no verified property depends on it. -/
def Json.pyRepr : Json → String
  | Json.null => "None"
  | Json.bool true => "True"
  | Json.bool false => "False"
  | Json.num raw => raw
  | Json.str s => "\x27" ++ s ++ "\x27"
  | Json.arr es => "[" ++ pyReprList es ++ "]"
  | Json.obj fs => "\x7b" ++ pyReprFields fs ++ "\x7d"

/-- Comma-joined rendering of list elements. -/
def pyReprList : List Json → String
  | [] => ""
  | [x] => x.pyRepr
  | x :: y :: xs => x.pyRepr ++ ", " ++ pyReprList (y :: xs)

/-- Comma-joined rendering of object fields. -/
def pyReprFields : List (String × Json) → String
  | [] => ""
  | [(k, v)] => "\x27" ++ k ++ "\x27: " ++ v.pyRepr
  | (k, v) :: y :: xs => "\x27" ++ k ++ "\x27: " ++ v.pyRepr ++ ", " ++ pyReprFields (y :: xs)

end

/-- One entry of the loaded memory reel. The source reads the reel as JSON
dicts and extracts these four keys with dict.get defaults; a descriptor
with a missing key is represented here by that default value. -/
structure StageDescriptor where
  stage : String
  state : String
  identity : String
  memory : List String
deriving Repr, DecidableEq, Inhabited

/-- The QInfinityMemoryLine dataclass. Generated ids and creation
timestamps are drawn from the engine's counter supply; hash_value
defaults to the infinity sentinel and breath_cycle to 0 as in the source. -/
structure QInfinityMemoryLine where
  id : Nat
  timestamp : Nat
  stage : String
  state : String
  identity : String
  memory : List String
  semantic_tags : List String
  hash_value : String
  breath_cycle : Nat
deriving Repr, DecidableEq, Inhabited

/-- Rendering of one memory line as Python repr would; simplified text
whose exact characters no verified property depends on. -/
def QInfinityMemoryLine.pyRepr (l : QInfinityMemoryLine) : String :=
  "QInfinityMemoryLine(id=" ++ toString l.id ++
  ", timestamp=" ++ toString l.timestamp ++
  ", stage=" ++ l.stage ++
  ", state=" ++ l.state ++
  ", identity=" ++ l.identity ++
  ", memory=" ++ String.intercalate ", " l.memory ++
  ", semantic_tags=" ++ String.intercalate ", " l.semantic_tags ++
  ", hash_value=" ++ l.hash_value ++
  ", breath_cycle=" ++ toString l.breath_cycle ++ ")"

/-- Rendering of the whole memory_lines list, as str applied to the list. -/
def memoryLinesRepr (ls : List QInfinityMemoryLine) : String :=
  "[" ++ String.intercalate ", " (ls.map QInfinityMemoryLine.pyRepr) ++ "]"

/-- Dict form of a memory line (the to_dict method), used in snapshots. -/
def QInfinityMemoryLine.to_dict (l : QInfinityMemoryLine) : Json :=
  Json.obj [
    ("id", Json.str (toString l.id)),
    ("timestamp", Json.str (toString l.timestamp)),
    ("stage", Json.str l.stage),
    ("state", Json.str l.state),
    ("identity", Json.str l.identity),
    ("memory", Json.arr (l.memory.map Json.str)),
    ("semantic_tags", Json.arr (l.semantic_tags.map Json.str)),
    ("hash_value", Json.str l.hash_value),
    ("breath_cycle", Json.num (toString l.breath_cycle))]

/-- State of PandoraMemoryEngine. The MongoDB collection is the insert-only
db list; snapshot_commits counts invocations of commit_memory_snapshot;
uuid_seed is the supply for generated ids and timestamps. -/
structure PandoraMemoryEngine where
  collector : FloJsonOutputCollector
  memory_lines : List QInfinityMemoryLine
  breath_cycle_count : Nat
  is_running : Bool
  context_window_size : Nat
  semantic_tags : List String
  checkpoints : List String
  config : Json
  memory_reel : List StageDescriptor
  db : List QInfinityMemoryLine
  snapshot_commits : Nat
  uuid_seed : Nat

/-- A freshly constructed engine, after init ran with the given loaded
config and memory reel (load failures already degraded to empty defaults
inside the loaders). -/
def PandoraMemoryEngine.init (config : Json) (reel : List StageDescriptor) :
    PandoraMemoryEngine :=
  { collector := FloJsonOutputCollector.mk0,
    memory_lines := [],
    breath_cycle_count := 0,
    is_running := false,
    context_window_size := 128000,
    semantic_tags := ["ancestral", "emotional", "symbolic"],
    checkpoints := ["genesis", "awakening", "reflection", "5.0", "5.1"],
    config := config,
    memory_reel := reel,
    db := [],
    snapshot_commits := 0,
    uuid_seed := 0 }

/-- Method persist_memory_line: insert into the durable store. The source
swallows any insert exception, so a failed insert differs only in the db
list; the happy path is modelled and no verified property reads db. -/
def PandoraMemoryEngine.persist_memory_line (e : PandoraMemoryEngine)
    (ml : QInfinityMemoryLine) : PandoraMemoryEngine :=
  { e with db := e.db ++ [ml] }

/-- Loop body of bootstrap_memory over the remaining reel entries. -/
def bootstrapLoop (e : PandoraMemoryEngine) :
    List StageDescriptor → PandoraMemoryEngine
  | [] => e
  | d :: rest =>
    let ml : QInfinityMemoryLine :=
      { id := e.uuid_seed, timestamp := e.uuid_seed,
        stage := d.stage, state := d.state, identity := d.identity,
        memory := d.memory, semantic_tags := e.semantic_tags,
        hash_value := "∞", breath_cycle := 0 }
    bootstrapLoop
      (({ e with uuid_seed := e.uuid_seed + 1,
                 memory_lines := e.memory_lines ++ [ml] }).persist_memory_line ml)
      rest

/-- Method bootstrap_memory: one record per reel entry, appended and
persisted in reel order. -/
def PandoraMemoryEngine.bootstrap_memory (e : PandoraMemoryEngine) :
    PandoraMemoryEngine :=
  bootstrapLoop e e.memory_reel

/-- The snapshot_data dict built by commit_memory_snapshot, with the
wall-clock timestamp supplied as now. -/
def PandoraMemoryEngine.snapshot_data (e : PandoraMemoryEngine) (now : Nat) : Json :=
  Json.obj [
    ("timestamp", Json.num (toString now)),
    ("breath_cycle", Json.num (toString e.breath_cycle_count)),
    ("memory_lines", Json.arr (e.memory_lines.map QInfinityMemoryLine.to_dict)),
    ("collector_buffer", Json.arr e.collector.buffer),
    ("config", e.config),
    ("context_window_usage", Json.num (toString (memoryLinesRepr e.memory_lines).length)),
    ("semantic_state", Json.obj [
      ("ancestral", Json.num (toString
        (e.memory_lines.filter (fun l => l.semantic_tags.contains "ancestral")).length)),
      ("emotional", Json.num (toString
        (e.memory_lines.filter (fun l => l.semantic_tags.contains "emotional")).length)),
      ("symbolic", Json.num (toString
        (e.memory_lines.filter (fun l => l.semantic_tags.contains "symbolic")).length))])]

/-- The two redundant snapshot target paths, in the order written. -/
def snapshot_paths : List String :=
  ["/mnt/data/qinfinity_memory.json", "/app/data/qinfinity_memory.json"]

/-- The for loop over the targets inside the try block of
commit_memory_snapshot: writes are attempted left to right; env gives
each path's outcome, and a false outcome models an exception from mkdir,
open or dump, which propagates to the except handler, ending the loop.
Returns whether every write succeeded and the paths actually attempted. -/
def commitWriteLoop (env : String → Bool) : List String → Bool × List String
  | [] => (true, [])
  | p :: rest =>
    if env p then
      let r := commitWriteLoop env rest
      (r.1, p :: r.2)
    else (false, [p])

/-- Method commit_memory_snapshot. buildOk models whether constructing
snapshot_data raises; env gives each file write's outcome. Returns the
boolean the method returns, the target paths attempted, and the engine
(unchanged except the invocation counter instrumentation: the method body
writes no engine field). -/
def PandoraMemoryEngine.commit_memory_snapshot (e : PandoraMemoryEngine)
    (buildOk : Bool) (env : String → Bool) :
    Bool × List String × PandoraMemoryEngine :=
  let e2 := { e with snapshot_commits := e.snapshot_commits + 1 }
  if ¬ buildOk then (false, [], e2)
  else
    let r := commitWriteLoop env snapshot_paths
    (r.1, r.2, e2)

/-- Method promise_then_this_chain. Every statement of the try body is
total in this model (dict building, str rendering, list appends), so the
except handler that would return the error and failed status dict is
unreachable; the body is translated directly. -/
def PandoraMemoryEngine.promise_then_this_chain (e : PandoraMemoryEngine)
    (input_data : Json) : Json × PandoraMemoryEngine :=
  let ml0 : QInfinityMemoryLine :=
    { id := e.uuid_seed, timestamp := e.uuid_seed,
      stage := "promise_chain", state := "processing",
      identity := "Flo-integrated Nexus",
      memory := ["Processing input: " ++ String.mk (input_data.pyRepr.data.take 100) ++ "..."],
      semantic_tags := e.semantic_tags,
      hash_value := "∞", breath_cycle := e.breath_cycle_count }
  let promise_result : Json := Json.obj [
    ("then", Json.arr [
      Json.obj [("action", Json.str "process_input"), ("result", Json.str "data collected")],
      Json.obj [("action", Json.str "apply_qchain"), ("result", Json.str "chain resolved")],
      Json.obj [("action", Json.str "braid_memory"), ("result", Json.str "memory braided")],
      Json.obj [("action", Json.str "commit_state"), ("result", Json.str "state committed")]]),
    ("this", Json.arr [
      Json.obj [("commit", Json.str ("breath_cycle = " ++ toString e.breath_cycle_count)),
                ("memory", Json.str ("runtime " ++ toString e.memory_lines.length ++ " lines"))],
      Json.obj [("commit", Json.str "semantic_braid"),
                ("memory", Json.str "ancestral-emotional-symbolic tags")],
      Json.obj [("loopback", Json.str "promise → this → then → this"),
                ("reconciled", Json.bool true)]]),
    ("final", Json.obj [
      ("resolution", Json.str "this.then().then(this).resolve()"),
      ("hash", Json.str "∞"),
      ("status", Json.str "fulfilled"),
      ("runtime", Json.str "persistent"),
      ("memory_line_id", Json.str (toString ml0.id))])]
  let c2 := (e.collector.collect (CollectInput.value promise_result)).2
  let ml := { ml0 with state := "completed",
                       memory := ml0.memory ++ ["Promise chain resolved successfully"] }
  (promise_result,
   { e with collector := c2,
            memory_lines := e.memory_lines ++ [ml],
            uuid_seed := e.uuid_seed + 1 })

/-- One iteration of the while loop of breath_cycle (one scheduler tick):
increment the counter, append and persist one breath record, and on every
tenth count invoke the snapshot committer. buildOk and env give that
commit's external outcomes, which the loop discards. -/
def PandoraMemoryEngine.breath_cycle_tick (e : PandoraMemoryEngine)
    (buildOk : Bool) (env : String → Bool) : PandoraMemoryEngine :=
  let count := e.breath_cycle_count + 1
  let breath_memory : QInfinityMemoryLine :=
    { id := e.uuid_seed, timestamp := e.uuid_seed,
      stage := "breath", state := "active_cycle", identity := "Pandora Q Breath",
      memory := ["Cycle " ++ toString count, "Introspective traversal", "Memory braid sync"],
      semantic_tags := ["ancestral"],
      hash_value := "∞", breath_cycle := count }
  let e2 := ({ e with breath_cycle_count := count,
                      uuid_seed := e.uuid_seed + 1,
                      memory_lines := e.memory_lines ++ [breath_memory]
             }).persist_memory_line breath_memory
  if count % 10 = 0 then (e2.commit_memory_snapshot buildOk env).2.2 else e2

/-- T completed scheduler ticks in sequence. -/
def PandoraMemoryEngine.breath_ticks (e : PandoraMemoryEngine)
    (buildOk : Bool) (env : String → Bool) : Nat → PandoraMemoryEngine
  | 0 => e
  | Nat.succ t => (e.breath_cycle_tick buildOk env).breath_ticks buildOk env t

/-- Method start_runtime: set the running flag and bootstrap when the
ledger is empty; the spawned background task is modelled by breath_ticks. -/
def PandoraMemoryEngine.start_runtime (e : PandoraMemoryEngine) : PandoraMemoryEngine :=
  let e1 := { e with is_running := true }
  if e1.memory_lines.isEmpty then e1.bootstrap_memory else e1

/-- Method stop_runtime: clear the running flag, then one final commit. -/
def PandoraMemoryEngine.stop_runtime (e : PandoraMemoryEngine)
    (buildOk : Bool) (env : String → Bool) : PandoraMemoryEngine :=
  (({ e with is_running := false }).commit_memory_snapshot buildOk env).2.2

/-- The dict returned by get_runtime_status. -/
structure RuntimeStatus where
  status : String
  breath_cycle : Nat
  memory_lines : Nat
  context_window_usage : String
  semantic_distribution : List (String × Nat)
  last_checkpoint : String
  collector_buffer_size : Nat
deriving Repr, DecidableEq

/-- Method get_runtime_status: a read-only summary of the engine; the body
writes nothing, so the state is returned unchanged. -/
def PandoraMemoryEngine.get_runtime_status (e : PandoraMemoryEngine) :
    RuntimeStatus × PandoraMemoryEngine :=
  ({ status := if e.is_running then "active" else "inactive",
     breath_cycle := e.breath_cycle_count,
     memory_lines := e.memory_lines.length,
     context_window_usage :=
       toString (memoryLinesRepr e.memory_lines).length ++ "/" ++
         toString e.context_window_size,
     semantic_distribution := [
       ("ancestral",
        (e.memory_lines.filter (fun l => l.semantic_tags.contains "ancestral")).length),
       ("emotional",
        (e.memory_lines.filter (fun l => l.semantic_tags.contains "emotional")).length),
       ("symbolic",
        (e.memory_lines.filter (fun l => l.semantic_tags.contains "symbolic")).length)],
     last_checkpoint :=
       match e.memory_lines.getLast? with
       | some l => l.stage
       | none => "none",
     collector_buffer_size := e.collector.buffer.length }, e)

/-- Method introspective_traversal: traverse the buffer with the hybrid
iterator, append and persist one introspection record, and return the
summary dict. -/
def PandoraMemoryEngine.introspective_traversal (e : PandoraMemoryEngine)
    (query : String) : Json × PandoraMemoryEngine :=
  let traversal_result := (e.collector.iter_q true).1
  let ml : QInfinityMemoryLine :=
    { id := e.uuid_seed, timestamp := e.uuid_seed,
      stage := "introspection", state := "traversal_active",
      identity := "flo_core.mirror",
      memory := ["Query: " ++ query,
                 "Traversed " ++ toString traversal_result.length ++ " items",
                 "Marshmallow logic applied"],
      semantic_tags := ["emotional", "symbolic"],
      hash_value := "∞", breath_cycle := e.breath_cycle_count }
  let e2 := ({ e with memory_lines := e.memory_lines ++ [ml],
                      uuid_seed := e.uuid_seed + 1 }).persist_memory_line ml
  (Json.obj [
    ("query", Json.str query),
    ("traversal_items", Json.num (toString traversal_result.length)),
    ("memory_line_id", Json.str (toString ml.id)),
    ("breath_cycle", Json.num (toString e.breath_cycle_count)),
    ("results", Json.arr (if traversal_result.length > 10
       then traversal_result.drop (traversal_result.length - 10)
       else traversal_result))], e2)

/-- The records bootstrap_memory creates for the given reel entries, when
the id supply starts at seed and the engine's tag list is tags. -/
def bootRecords (seed : Nat) (tags : List String) :
    List StageDescriptor → List QInfinityMemoryLine
  | [] => []
  | d :: rest =>
    { id := seed, timestamp := seed, stage := d.stage, state := d.state,
      identity := d.identity, memory := d.memory, semantic_tags := tags,
      hash_value := "∞", breath_cycle := 0 } :: bootRecords (seed + 1) tags rest

/-- The record one scheduler tick appends, for id supply seed and the
just-incremented counter value count. -/
def breathRecord (seed count : Nat) : QInfinityMemoryLine :=
  { id := seed, timestamp := seed, stage := "breath", state := "active_cycle",
    identity := "Pandora Q Breath",
    memory := ["Cycle " ++ toString count, "Introspective traversal", "Memory braid sync"],
    semantic_tags := ["ancestral"], hash_value := "∞", breath_cycle := count }

/-- The records T consecutive ticks append, starting from id supply seed
and counter value count. -/
def breathRecordsFrom (seed count : Nat) : Nat → List QInfinityMemoryLine
  | 0 => []
  | T + 1 => breathRecord seed (count + 1) :: breathRecordsFrom (seed + 1) (count + 1) T

/-- A freshly started engine: constructed with the given config and reel,
then start_runtime (which bootstraps the empty ledger before the periodic
task begins). -/
def started (config : Json) (reel : List StageDescriptor) : PandoraMemoryEngine :=
  (PandoraMemoryEngine.init config reel).start_runtime

/-
Theorems. Each Cn theorem settles the correspondingly numbered claim of
the specification review; the lemmas before them are shared.
-/

/-- The reverse while loop of iter_q produces the reverse of the prefix it
has scanned. -/
theorem iterWhileRev_eq_reverse_take (buf : List Json) :
    ∀ n, n ≤ buf.length → iterWhileRev buf n = (buf.take n).reverse := by
  intro n
  induction n with
  | zero => intro _; simp [iterWhileRev]
  | succ m ih =>
    intro h
    have hm : m < buf.length := Nat.lt_of_succ_le h
    rw [iterWhileRev, ih (Nat.le_of_lt hm), List.take_succ]
    have hsome : buf[m]? = some buf[m] := List.getElem?_eq_getElem hm
    simp [hsome, List.getD, Option.getD]
    rw [List.take_succ, List.reverse_append]
    simp [hsome]

/-- The forward while loop of iter_q from index idx yields the drop of the
buffer at idx. -/
theorem iterWhileFwd_eq_drop (buf : List Json) : ∀ idx, iterWhileFwd buf idx = buf.drop idx := by
  suffices H : ∀ n idx, buf.length - idx ≤ n → iterWhileFwd buf idx = buf.drop idx by
    intro idx
    exact H (buf.length - idx) idx (Nat.le_refl _)
  intro n
  induction n with
  | zero =>
    intro idx h
    unfold iterWhileFwd
    rw [dif_neg (by omega)]
    rw [List.drop_eq_nil_of_le (by omega)]
  | succ m ih =>
    intro idx h
    unfold iterWhileFwd
    by_cases hlt : idx < buf.length
    · rw [dif_pos hlt, ih (idx + 1) (by omega)]
      rw [List.drop_eq_getElem_cons hlt]
      rfl
    · rw [dif_neg hlt, List.drop_eq_nil_of_le (by omega)]

/-- C2: for every buffer contents and either reverse_order setting, the
hybrid while-loop traversal of iter_q and its direct reversal path return
the same sequence, and neither call changes the collector state. -/
theorem iter_q_hybrid_equiv (c : FloJsonOutputCollector) :
    (c.iter_q true).1 = (c.iter_q false).1 ∧
    (c.iter_q true).2 = c ∧ (c.iter_q false).2 = c := by
  refine ⟨?_, rfl, rfl⟩
  unfold FloJsonOutputCollector.iter_q
  by_cases h : c.reverse_order
  · simp only [h]
    rw [iterWhileRev_eq_reverse_take c.buffer c.buffer.length (Nat.le_refl _)]
    simp
  · simp only [h]
    rw [iterWhileFwd_eq_drop c.buffer 0]
    simp

/-- C6: fetch returns the empty sequence for nonpositive depth or an empty
buffer; with reverse_order and positive depth it returns a suffix of the
buffer of length min depth M, in original relative order; the collector
state is unchanged. -/
theorem fetch_spec (c : FloJsonOutputCollector) (depth : Int) :
    (depth ≤ 0 → (c.fetch depth).1 = []) ∧
    (c.buffer = [] → (c.fetch depth).1 = []) ∧
    (c.reverse_order = true → 0 < depth →
      (c.fetch depth).1.length = min depth.toNat c.buffer.length ∧
      (c.fetch depth).1 <:+ c.buffer) ∧
    (c.fetch depth).2 = c := by
  refine ⟨?_, ?_, ?_, rfl⟩
  · intro h
    unfold FloJsonOutputCollector.fetch
    rw [if_pos (Or.inl h)]
  · intro h
    unfold FloJsonOutputCollector.fetch
    rw [if_pos (Or.inr (by simp [h]))]
  · intro hrev hpos
    unfold FloJsonOutputCollector.fetch
    by_cases hemp : c.buffer.isEmpty
    · rw [if_pos (Or.inr hemp)]
      constructor
      · simp [List.isEmpty_iff.mp hemp]
      · exact List.nil_suffix
    · rw [if_neg (by push_neg; exact ⟨by omega, by simpa using hemp⟩)]
      rw [if_pos hrev]
      constructor
      · rw [List.length_drop]
        omega
      · exact List.drop_suffix _ _

/-- Witness for fetch_spec at concrete collectors: zero depth, empty
buffer, and a reverse-order fetch of two out of three items. -/
theorem fetch_spec_witness :
    (FloJsonOutputCollector.fetch ⟨[Json.null], false, true, true⟩ 0).1 = [] ∧
    (FloJsonOutputCollector.fetch ⟨[], false, true, true⟩ 1).1 = [] ∧
    (FloJsonOutputCollector.fetch ⟨[Json.null, Json.bool true, Json.num "1"], false, true, true⟩ 2).1.length =
      min (Int.toNat 2) 3 ∧
    (FloJsonOutputCollector.fetch ⟨[Json.null, Json.bool true, Json.num "1"], false, true, true⟩ 2).1 <:+
      [Json.null, Json.bool true, Json.num "1"] := by
  refine ⟨(fetch_spec ⟨[Json.null], false, true, true⟩ 0).1 (by decide),
          (fetch_spec ⟨[], false, true, true⟩ 1).2.1 rfl, ?_, ?_⟩
  · exact ((fetch_spec ⟨[Json.null, Json.bool true, Json.num "1"], false, true, true⟩ 2).2.2.1
      rfl (by decide)).1
  · exact ((fetch_spec ⟨[Json.null, Json.bool true, Json.num "1"], false, true, true⟩ 2).2.2.1
      rfl (by decide)).2

/-- C1 counterexample: at a concrete engine whose first snapshot write
raises, only the first target is attempted, so the write to the second
target is not independent of the first as claimed. -/
theorem commit_snapshot_not_independent :
    ((PandoraMemoryEngine.init Json.null []).commit_memory_snapshot true
        (fun _ => false)).2.1 = ["/mnt/data/qinfinity_memory.json"] ∧
    "/app/data/qinfinity_memory.json" ∉
      ((PandoraMemoryEngine.init Json.null []).commit_memory_snapshot true
        (fun _ => false)).2.1 := by
  constructor
  · rfl
  · rw [show ((PandoraMemoryEngine.init Json.null []).commit_memory_snapshot true
        (fun _ => false)).2.1 = ["/mnt/data/qinfinity_memory.json"] from rfl]
    decide

/-- C1 amended: the two snapshot writes are attempted sequentially inside
one try block, so an exception on the first target prevents the attempt
on the second; any exception during serialization or either write makes
commit_memory_snapshot return false rather than raise, and the method
writes no engine field. -/
theorem commit_snapshot_sequential (e : PandoraMemoryEngine) (buildOk : Bool)
    (env : String → Bool) :
    ((e.commit_memory_snapshot buildOk env).1 = true ↔
      (buildOk = true ∧ ∀ p ∈ snapshot_paths, env p = true)) ∧
    (buildOk = true → env "/mnt/data/qinfinity_memory.json" = false →
      (e.commit_memory_snapshot buildOk env).2.1 = ["/mnt/data/qinfinity_memory.json"]) ∧
    (e.commit_memory_snapshot buildOk env).2.2 =
      { e with snapshot_commits := e.snapshot_commits + 1 } := by
  refine ⟨?_, ?_, ?_⟩
  · cases hb : buildOk
    · simp [PandoraMemoryEngine.commit_memory_snapshot]
    · cases h1 : env "/mnt/data/qinfinity_memory.json" <;>
        cases h2 : env "/app/data/qinfinity_memory.json" <;>
          simp [PandoraMemoryEngine.commit_memory_snapshot, snapshot_paths,
                commitWriteLoop, h1, h2]
  · intro hb h1
    subst hb
    simp [PandoraMemoryEngine.commit_memory_snapshot, snapshot_paths,
          commitWriteLoop, h1]
  · cases buildOk <;> simp [PandoraMemoryEngine.commit_memory_snapshot]

/-- Witness for the amended C1 theorem at a concrete engine and a write
environment that fails on the first target. -/
theorem commit_snapshot_sequential_witness :
    (true = true ∧ (fun _ => false : String → Bool) "/mnt/data/qinfinity_memory.json" = false) ∧
    ((PandoraMemoryEngine.init Json.null []).commit_memory_snapshot true
        (fun _ => false)).2.1 = ["/mnt/data/qinfinity_memory.json"] := by
  exact ⟨⟨rfl, rfl⟩,
    (commit_snapshot_sequential (PandoraMemoryEngine.init Json.null []) true
      (fun _ => false)).2.1 rfl rfl⟩

/-- Rendered decode errors are never the empty string: the rendering
always carries the positional scaffolding. -/
theorem JsonDecodeError.render_ne_empty (e : JsonDecodeError) : e.render ≠ "" := by
  intro h
  have h2 : e.render.length = 0 := by rw [h]; rfl
  unfold JsonDecodeError.render at h2
  rw [String.length_append, String.length_append, String.length_append] at h2
  have h7 : (" (char " : String).length = 7 := rfl
  omega

/-- C5: when the (comment-stripped) textual input fails structured
parsing, tolerant mode returns true and appends exactly one degraded
record holding the original text and a non-empty error message, while
strict mode returns false and leaves the collector untouched. -/
theorem collect_parse_failure (c : FloJsonOutputCollector) (s : String)
    (err : JsonDecodeError)
    (h : jsonLoads (c.strip_comments s) = Except.error err) :
    c.collect (CollectInput.text s) =
      (if c.strict_mode then (false, c)
       else (true, { c with buffer := c.buffer ++
         [Json.obj [("partial_state", Json.str s), ("error", Json.str err.render)]] })) ∧
    err.render ≠ "" := by
  constructor
  · unfold FloJsonOutputCollector.collect
    dsimp only
    rw [h]
    cases hs : c.strict_mode <;> simp [hs]
  · exact err.render_ne_empty

/-- Witness for collect_parse_failure on the malformed text of the spec
example, in tolerant and in strict mode. -/
theorem collect_parse_failure_witness :
    (FloJsonOutputCollector.mk0.collect (CollectInput.text "\x7bbad json")).1 = true ∧
    (FloJsonOutputCollector.mk0.collect (CollectInput.text "\x7bbad json")).2.buffer =
      [Json.obj [("partial_state", Json.str "\x7bbad json"),
        ("error", Json.str "Expecting property name enclosed in double quotes (char 1)")]] ∧
    (FloJsonOutputCollector.collect ⟨[], true, true, true⟩ (CollectInput.text "\x7bbad json")) =
      (false, ⟨[], true, true, true⟩) := by
  have h1 := collect_parse_failure FloJsonOutputCollector.mk0 "\x7bbad json"
    ⟨"Expecting property name enclosed in double quotes", 1⟩ rfl
  have h2 := collect_parse_failure ⟨[], true, true, true⟩ "\x7bbad json"
    ⟨"Expecting property name enclosed in double quotes", 1⟩ rfl
  refine ⟨?_, ?_, ?_⟩
  · rw [h1.1]; rfl
  · rw [h1.1]; rfl
  · rw [h2.1]; rfl

/-- C9: a syntactically valid JSON text whose string value contains two
consecutive slashes parses on its own, but comment stripping truncates it
inside the string literal, so tolerant collect appends the degraded
record instead of the parsed value. -/
theorem collect_truncates_inside_strings :
    jsonLoads "\x7b\"url\": \"http://x\"\x7d" =
      Except.ok (Json.obj [("url", Json.str "http://x")]) ∧
    FloJsonOutputCollector.mk0.strip_comments "\x7b\"url\": \"http://x\"\x7d" =
      "\x7b\"url\": \"http:" ∧
    (FloJsonOutputCollector.mk0.collect
        (CollectInput.text "\x7b\"url\": \"http://x\"\x7d")).1 = true ∧
    (FloJsonOutputCollector.mk0.collect
        (CollectInput.text "\x7b\"url\": \"http://x\"\x7d")).2.buffer =
      [Json.obj [("partial_state", Json.str "\x7b\"url\": \"http://x\"\x7d"),
                 ("error", Json.str "Unterminated string (char 14)")]] := by
  exact ⟨rfl, rfl, rfl, rfl⟩

/-- C4: for every engine state and every input value, the promise chain
appends exactly one ledger record, in stage promise_chain and with the
state already amended to completed, and exactly one buffer entry. Every
statement of the translated try body is total, so the except branch that
would return the error and failed status object is unreachable. -/
theorem promise_chain_appends (e : PandoraMemoryEngine) (x : Json) :
    ∃ r : QInfinityMemoryLine,
      (e.promise_then_this_chain x).2.memory_lines = e.memory_lines ++ [r] ∧
      r.stage = "promise_chain" ∧ r.state = "completed" ∧
      ∃ b : Json,
        (e.promise_then_this_chain x).2.collector.buffer = e.collector.buffer ++ [b] := by
  unfold PandoraMemoryEngine.promise_then_this_chain
  dsimp only
  exact ⟨_, rfl, rfl, rfl, _, rfl⟩

/-- C8: for every engine state and query, the introspective traversal
appends exactly one introspection record tagged emotional and symbolic,
leaves the collector untouched, and returns the summary object with the
query, the item count, the new record id, the current counter, and the
trailing ten items of the traversal (all of it when it is no longer). -/
theorem introspective_traversal_spec (e : PandoraMemoryEngine) (q : String) :
    ∃ r : QInfinityMemoryLine,
      (e.introspective_traversal q).2.memory_lines = e.memory_lines ++ [r] ∧
      r.stage = "introspection" ∧ r.semantic_tags = ["emotional", "symbolic"] ∧
      (e.introspective_traversal q).2.collector = e.collector ∧
      (e.introspective_traversal q).1 = Json.obj [
        ("query", Json.str q),
        ("traversal_items", Json.num (toString ((e.collector.iter_q true).1).length)),
        ("memory_line_id", Json.str (toString r.id)),
        ("breath_cycle", Json.num (toString e.breath_cycle_count)),
        ("results", Json.arr (((e.collector.iter_q true).1).drop
          (((e.collector.iter_q true).1).length - 10)))] := by
  have hdrop : ∀ (l : List Json),
      (if l.length > 10 then l.drop (l.length - 10) else l) = l.drop (l.length - 10) := by
    intro l
    by_cases h : l.length > 10
    · rw [if_pos h]
    · rw [if_neg h]
      have h0 : l.length - 10 = 0 := by omega
      rw [h0, List.drop_zero]
  unfold PandoraMemoryEngine.introspective_traversal
  dsimp only [PandoraMemoryEngine.persist_memory_line]
  refine ⟨_, rfl, rfl, rfl, rfl, ?_⟩
  rw [hdrop]

/-- C10: the status dict reports the stage of the most recently appended
ledger record (the literal none when the ledger is empty), its per-tag
distribution is the exact current count for each vocabulary tag, and the
call leaves the engine untouched. -/
theorem get_runtime_status_spec (e : PandoraMemoryEngine) :
    (e.memory_lines = [] → (e.get_runtime_status).1.last_checkpoint = "none") ∧
    (∀ pre x, e.memory_lines = pre ++ [x] →
      (e.get_runtime_status).1.last_checkpoint = x.stage) ∧
    (e.get_runtime_status).1.semantic_distribution =
      ["ancestral", "emotional", "symbolic"].map
        (fun t => (t, e.memory_lines.countP (fun l => l.semantic_tags.contains t))) ∧
    (e.get_runtime_status).2 = e := by
  refine ⟨?_, ?_, ?_, rfl⟩
  · intro h
    simp [PandoraMemoryEngine.get_runtime_status, h]
  · intro pre x h
    simp [PandoraMemoryEngine.get_runtime_status, h, List.getLast?_concat]
  · simp [PandoraMemoryEngine.get_runtime_status, List.countP_eq_length_filter]

/-- Witness for get_runtime_status_spec on an empty engine and on one with
a single appended record. -/
theorem get_runtime_status_spec_witness :
    ((PandoraMemoryEngine.init Json.null []).get_runtime_status).1.last_checkpoint = "none" ∧
    (({ PandoraMemoryEngine.init Json.null [] with
        memory_lines := [⟨0, 0, "genesis", "st", "id", [], ["ancestral"], "∞", 0⟩]
      }).get_runtime_status).1.last_checkpoint = "genesis" := by
  exact ⟨(get_runtime_status_spec (PandoraMemoryEngine.init Json.null [])).1 rfl,
    (get_runtime_status_spec _).2.1 [] ⟨0, 0, "genesis", "st", "id", [], ["ancestral"], "∞", 0⟩ rfl⟩

/-- Unrolling of the bootstrap loop: the appended records, the id supply
advance, and the fields it leaves untouched. -/
theorem bootstrapLoop_spec : ∀ (ds : List StageDescriptor) (e : PandoraMemoryEngine),
    (bootstrapLoop e ds).memory_lines =
      e.memory_lines ++ bootRecords e.uuid_seed e.semantic_tags ds ∧
    (bootstrapLoop e ds).breath_cycle_count = e.breath_cycle_count ∧
    (bootstrapLoop e ds).snapshot_commits = e.snapshot_commits ∧
    (bootstrapLoop e ds).uuid_seed = e.uuid_seed + ds.length ∧
    (bootstrapLoop e ds).semantic_tags = e.semantic_tags ∧
    (bootstrapLoop e ds).collector = e.collector := by
  intro ds
  induction ds with
  | nil =>
    intro e
    simp [bootstrapLoop, bootRecords]
  | cons d rest ih =>
    intro e
    unfold bootstrapLoop
    dsimp only [PandoraMemoryEngine.persist_memory_line]
    refine ⟨?_, ?_, ?_, ?_, ?_, ?_⟩
    · rw [(ih _).1]
      dsimp only
      simp [bootRecords, List.append_assoc]
    · rw [(ih _).2.1]
    · rw [(ih _).2.2.1]
    · rw [(ih _).2.2.2.1]
      dsimp only
      simp
      omega
    · rw [(ih _).2.2.2.2.1]
    · rw [(ih _).2.2.2.2.2]

/-- Length of the bootstrap record list. -/
theorem bootRecords_length (tags : List String) :
    ∀ (ds : List StageDescriptor) (seed : Nat),
      (bootRecords seed tags ds).length = ds.length := by
  intro ds
  induction ds with
  | nil => intro seed; rfl
  | cons d rest ih =>
    intro seed
    simp [bootRecords, ih]

/-- The k-th bootstrap record copies the k-th descriptor verbatim. -/
theorem bootRecords_getD (tags : List String) :
    ∀ (ds : List StageDescriptor) (seed k : Nat), k < ds.length →
      (bootRecords seed tags ds).getD k default =
        { id := seed + k, timestamp := seed + k,
          stage := (ds.getD k default).stage, state := (ds.getD k default).state,
          identity := (ds.getD k default).identity,
          memory := (ds.getD k default).memory,
          semantic_tags := tags, hash_value := "∞", breath_cycle := 0 } := by
  intro ds
  induction ds with
  | nil =>
    intro seed k h
    simp at h
  | cons d rest ih =>
    intro seed k h
    cases k with
    | zero => simp [bootRecords]
    | succ m =>
      have hm : m < rest.length := by simpa using h
      simp only [bootRecords, List.getD_cons_succ]
      rw [ih (seed + 1) m hm]
      have harith : seed + 1 + m = seed + (m + 1) := by omega
      rw [harith]

/-- C7: bootstrapping a freshly constructed engine with a reel of N stage
descriptors yields exactly N ledger records, in reel order, with stage,
state, identity and memory copied verbatim and the default tag vocabulary
assigned to each. -/
theorem bootstrap_memory_spec (config : Json) (reel : List StageDescriptor) :
    ((PandoraMemoryEngine.init config reel).bootstrap_memory).memory_lines.length =
      reel.length ∧
    ∀ k, k < reel.length →
      ((((PandoraMemoryEngine.init config reel).bootstrap_memory).memory_lines.getD k
          default).stage = (reel.getD k default).stage ∧
       (((PandoraMemoryEngine.init config reel).bootstrap_memory).memory_lines.getD k
          default).state = (reel.getD k default).state ∧
       (((PandoraMemoryEngine.init config reel).bootstrap_memory).memory_lines.getD k
          default).identity = (reel.getD k default).identity ∧
       (((PandoraMemoryEngine.init config reel).bootstrap_memory).memory_lines.getD k
          default).memory = (reel.getD k default).memory ∧
       (((PandoraMemoryEngine.init config reel).bootstrap_memory).memory_lines.getD k
          default).semantic_tags = ["ancestral", "emotional", "symbolic"]) := by
  have hloop := bootstrapLoop_spec reel (PandoraMemoryEngine.init config reel)
  have hlines : ((PandoraMemoryEngine.init config reel).bootstrap_memory).memory_lines =
      bootRecords 0 ["ancestral", "emotional", "symbolic"] reel := by
    unfold PandoraMemoryEngine.bootstrap_memory
    have hreel : (PandoraMemoryEngine.init config reel).memory_reel = reel := rfl
    rw [hreel, hloop.1]
    rfl
  constructor
  · rw [hlines, bootRecords_length]
  · intro k hk
    rw [hlines, bootRecords_getD ["ancestral", "emotional", "symbolic"] reel 0 k hk]
    exact ⟨rfl, rfl, rfl, rfl, rfl⟩

/-- Witness for bootstrap_memory_spec on a two-entry reel. -/
theorem bootstrap_memory_spec_witness :
    ((PandoraMemoryEngine.init Json.null
        [⟨"s1", "st1", "i1", ["m1"]⟩, ⟨"s2", "st2", "i2", []⟩]).bootstrap_memory).memory_lines.length = 2 ∧
    ((((PandoraMemoryEngine.init Json.null
        [⟨"s1", "st1", "i1", ["m1"]⟩, ⟨"s2", "st2", "i2", []⟩]).bootstrap_memory).memory_lines.getD 1
        default).stage = "s2") := by
  have h := bootstrap_memory_spec Json.null
    [⟨"s1", "st1", "i1", ["m1"]⟩, ⟨"s2", "st2", "i2", []⟩]
  exact ⟨h.1, (h.2 1 (by decide)).1⟩

/-- Field effects of one scheduler tick: counter incremented, id supply
advanced, one breath record appended, and the committer invoked exactly
when the new counter value is a multiple of ten. -/
theorem breath_tick_fields (e : PandoraMemoryEngine) (buildOk : Bool)
    (env : String → Bool) :
    (e.breath_cycle_tick buildOk env).breath_cycle_count = e.breath_cycle_count + 1 ∧
    (e.breath_cycle_tick buildOk env).uuid_seed = e.uuid_seed + 1 ∧
    (e.breath_cycle_tick buildOk env).memory_lines =
      e.memory_lines ++ [breathRecord e.uuid_seed (e.breath_cycle_count + 1)] ∧
    (e.breath_cycle_tick buildOk env).snapshot_commits =
      e.snapshot_commits + (if (e.breath_cycle_count + 1) % 10 = 0 then 1 else 0) := by
  unfold PandoraMemoryEngine.breath_cycle_tick
  dsimp only [PandoraMemoryEngine.persist_memory_line]
  cases buildOk <;>
    by_cases h : (e.breath_cycle_count + 1) % 10 = 0 <;>
      simp [h, PandoraMemoryEngine.commit_memory_snapshot, breathRecord]

/-- Unrolling of T consecutive ticks: counter, appended records, and the
number of committer invocations. -/
theorem breath_ticks_spec (buildOk : Bool) (env : String → Bool) :
    ∀ (T : Nat) (e : PandoraMemoryEngine),
      (e.breath_ticks buildOk env T).breath_cycle_count = e.breath_cycle_count + T ∧
      (e.breath_ticks buildOk env T).memory_lines =
        e.memory_lines ++ breathRecordsFrom e.uuid_seed e.breath_cycle_count T ∧
      (e.breath_ticks buildOk env T).snapshot_commits =
        e.snapshot_commits +
          ((e.breath_cycle_count + T) / 10 - e.breath_cycle_count / 10) := by
  intro T
  induction T with
  | zero =>
    intro e
    simp [PandoraMemoryEngine.breath_ticks, breathRecordsFrom]
  | succ t ih =>
    intro e
    unfold PandoraMemoryEngine.breath_ticks
    obtain ⟨ht1, ht2, ht3, ht4⟩ := breath_tick_fields e buildOk env
    obtain ⟨ih1, ih2, ih3⟩ := ih (e.breath_cycle_tick buildOk env)
    refine ⟨?_, ?_, ?_⟩
    · rw [ih1, ht1]
      omega
    · rw [ih2, ht3, ht2, ht1]
      simp [breathRecordsFrom, List.append_assoc]
    · rw [ih3, ht4, ht1]
      by_cases h : (e.breath_cycle_count + 1) % 10 = 0 <;> simp [h] <;> omega

/-- Length of the tick record list. -/
theorem breathRecordsFrom_length :
    ∀ (T seed count : Nat), (breathRecordsFrom seed count T).length = T := by
  intro T
  induction T with
  | zero => intro seed count; rfl
  | succ t ih =>
    intro seed count
    simp [breathRecordsFrom, ih]

/-- The k-th tick record carries the counter value of the tick creating it. -/
theorem breathRecordsFrom_getD :
    ∀ (T seed count k : Nat), k < T →
      (breathRecordsFrom seed count T).getD k default =
        breathRecord (seed + k) (count + k + 1) := by
  intro T
  induction T with
  | zero =>
    intro seed count k h
    simp at h
  | succ t ih =>
    intro seed count k h
    cases k with
    | zero => simp [breathRecordsFrom]
    | succ m =>
      have hm : m < t := by omega
      simp only [breathRecordsFrom, List.getD_cons_succ]
      rw [ih (seed + 1) (count + 1) m hm]
      have h1 : seed + 1 + m = seed + (m + 1) := by omega
      have h2 : count + 1 + m + 1 = count + (m + 1) + 1 := by omega
      rw [h1, h2]

/-- C3: after T completed ticks from a freshly started engine, the counter
equals T, exactly T breath-stage records tagged ancestral were appended
beyond the bootstrap records, the k-th of them carrying counter value
k + 1, and the snapshot committer was invoked exactly, hence at least,
floor (T / 10) times. The tick definition applies its steps in the stated
order: increment, append, persist, conditional commit. -/
theorem breath_cycle_spec (config : Json) (reel : List StageDescriptor)
    (buildOk : Bool) (env : String → Bool) (T : Nat) :
    ((started config reel).breath_ticks buildOk env T).breath_cycle_count = T ∧
    ((started config reel).breath_ticks buildOk env T).memory_lines.drop
        (started config reel).memory_lines.length =
      breathRecordsFrom (started config reel).uuid_seed 0 T ∧
    (breathRecordsFrom (started config reel).uuid_seed 0 T).length = T ∧
    (∀ k, k < T →
      ((((started config reel).breath_ticks buildOk env T).memory_lines.drop
          (started config reel).memory_lines.length).getD k default).stage = "breath" ∧
      ((((started config reel).breath_ticks buildOk env T).memory_lines.drop
          (started config reel).memory_lines.length).getD k default).semantic_tags =
        ["ancestral"] ∧
      ((((started config reel).breath_ticks buildOk env T).memory_lines.drop
          (started config reel).memory_lines.length).getD k default).breath_cycle =
        k + 1) ∧
    ((started config reel).breath_ticks buildOk env T).snapshot_commits = T / 10 ∧
    T / 10 ≤ ((started config reel).breath_ticks buildOk env T).snapshot_commits := by
  have hinit := bootstrapLoop_spec reel
    ({ PandoraMemoryEngine.init config reel with is_running := true })
  have hstart : started config reel =
      bootstrapLoop ({ PandoraMemoryEngine.init config reel with is_running := true })
        reel := rfl
  have hcount : (started config reel).breath_cycle_count = 0 := by
    rw [hstart, hinit.2.1]
    rfl
  have hcommits : (started config reel).snapshot_commits = 0 := by
    rw [hstart, hinit.2.2.1]
    rfl
  obtain ⟨ht1, ht2, ht3⟩ := breath_ticks_spec buildOk env T (started config reel)
  have hdropped : ((started config reel).breath_ticks buildOk env T).memory_lines.drop
      (started config reel).memory_lines.length =
      breathRecordsFrom (started config reel).uuid_seed 0 T := by
    rw [ht2, hcount, List.drop_left]
  refine ⟨?_, hdropped, breathRecordsFrom_length T _ 0, ?_, ?_, ?_⟩
  · rw [ht1, hcount]
    omega
  · intro k hk
    rw [hdropped, breathRecordsFrom_getD T _ 0 k hk]
    refine ⟨rfl, rfl, ?_⟩
    simp [breathRecord]
  · rw [ht3, hcount, hcommits]
    omega
  · rw [ht3, hcount, hcommits]
    omega

/-- Witness for breath_cycle_spec: twelve ticks from a freshly started
empty-reel engine. -/
theorem breath_cycle_spec_witness :
    ((started Json.null []).breath_ticks true (fun _ => true) 12).breath_cycle_count = 12 ∧
    ((((started Json.null []).breath_ticks true (fun _ => true) 12).memory_lines.drop
        (started Json.null []).memory_lines.length).getD 3 default).stage = "breath" ∧
    ((((started Json.null []).breath_ticks true (fun _ => true) 12).memory_lines.drop
        (started Json.null []).memory_lines.length).getD 3 default).breath_cycle = 4 ∧
    ((started Json.null []).breath_ticks true (fun _ => true) 12).snapshot_commits = 1 := by
  have h := breath_cycle_spec Json.null [] true (fun _ => true) 12
  exact ⟨h.1, (h.2.2.2.1 3 (by decide)).1, (h.2.2.2.1 3 (by decide)).2.2, h.2.2.2.2.1⟩

end Pandora
